import Mathlib

/-!
Shallow embedding of the client-side batch-submission workflow of the
wheat pest-and-disease detection frontend (src/frontend/types.ts, which
inlines App.tsx and ImageGrid.tsx).

The embedding models:
  * the `ImageFile` record and the web `File` objects it wraps (`FsFile`),
  * the staging handler `handleFiles` (filter to `image/*`, compute the
    `name-lastModified` id, allocate an object URL per accepted file,
    drop candidates whose id is already staged, append the rest),
  * the submit handler `handleProcessImages` (empty-staging guard, the
    fetch outcome, the error-body handling, and the filename-based
    reconciliation of the JSON result array),
  * the reset handler `handleReset` and the Clear Selection button,
  * the render-level submit button (rendered only in the IDLE/ERROR
    branch, `disabled={isProcessing}`).

Object-URL lifetime is made observable: `URL.createObjectURL` is modelled
by a counter (`nextUrl`) that mints distinct URL strings, recorded in
`allocatedUrls`; `revokedUrls` records the URLs passed to
`URL.revokeObjectURL`.  The source never calls `URL.revokeObjectURL`, so
no operation of the model ever extends `revokedUrls`.
-/

/-- Status enum, from `ProcessStatus` in src/frontend/types.ts. -/
inductive ProcessStatus where
  | IDLE
  | PROCESSING
  | SUCCESS
  | ERROR
deriving DecidableEq, Repr

/-- A web `File` object as the workflow observes it: its name, its
`lastModified` timestamp, its declared MIME type, and its byte content. -/
structure FsFile where
  name : String
  lastModified : Nat
  type : String
  content : List Nat
deriving DecidableEq, Repr

/-- The `ImageFile` interface of src/frontend/types.ts. -/
structure ImageFile where
  id : String
  file : FsFile
  previewUrl : String
deriving DecidableEq, Repr

/-- The `ProcessedImageResponse` interface of src/frontend/types.ts. -/
structure ProcessedImageResponse where
  filename : String
  processed_image_b64 : String
  content_type : String
deriving DecidableEq, Repr

/-- The React state of `App`, together with the object-URL resource
bookkeeping described in the module docstring. -/
structure AppState where
  selectedFiles : List ImageFile
  processedFiles : List ImageFile
  status : ProcessStatus
  error : Option String
  isDragging : Bool
  modalImage : Option ImageFile
  nextUrl : Nat
  allocatedUrls : List String
  revokedUrls : List String
deriving DecidableEq, Repr

/-- The initial state of `App`: all four pieces of React state start
empty/IDLE, and no object URL has been allocated or revoked. -/
def initialState : AppState :=
  { selectedFiles := []
    processedFiles := []
    status := ProcessStatus.IDLE
    error := none
    isDragging := false
    modalImage := none
    nextUrl := 0
    allocatedUrls := []
    revokedUrls := [] }

/-- JS `String.prototype.startsWith`, on the underlying character
sequences. -/
def strStartsWith (s pre : String) : Bool :=
  pre.data.isPrefixOf s.data

/-- The `file.type.startsWith("image/")` filter of `handleFiles`. -/
def isImageType (f : FsFile) : Bool :=
  strStartsWith f.type "image/"

/-- The id computed in `handleFiles`: the template literal
`file.name-file.lastModified`. -/
def fileId (f : FsFile) : String :=
  f.name ++ "-" ++ toString f.lastModified

/-- The URL minted by the n-th call of `URL.createObjectURL`: an opaque
blob URL, distinct for each allocation. -/
def objectUrl (n : Nat) : String :=
  "blob:" ++ toString n

/-- The `.map` of `handleFiles`: wrap each (already filtered) file into an
`ImageFile`, allocating one object URL per file in input order.  Returns
the wrapped list and the allocator counter after the calls. -/
def allocPreviews : List FsFile → Nat → List ImageFile × Nat
  | [], n => ([], n)
  | f :: fs, n =>
      let rest := allocPreviews fs (n + 1)
      ({ id := fileId f, file := f, previewUrl := objectUrl n } :: rest.1, rest.2)

/-- `handleFiles(files)` of App.tsx.  `none` models a null `FileList`.
Filters to `image/*`, wraps each file (allocating its preview URL), then
appends only those wrapped files whose id is not already in the store
(the `existingIds` set built from the previous `selectedFiles`). -/
def handleFiles (s : AppState) (files : Option (List FsFile)) : AppState :=
  match files with
  | none => s
  | some fs =>
      let imgs := fs.filter (fun f => isImageType f)
      let alloc := allocPreviews imgs s.nextUrl
      let newImageFiles := alloc.1
      let existingIds := s.selectedFiles.map (fun e => e.id)
      let trulyNewFiles := newImageFiles.filter (fun e => !(existingIds.contains e.id))
      { s with
          selectedFiles := s.selectedFiles ++ trulyNewFiles
          nextUrl := alloc.2
          allocatedUrls := s.allocatedUrls ++ newImageFiles.map (fun e => e.previewUrl) }

/-- `handleReset` of App.tsx: empties both file lists, returns to IDLE,
clears the error.  The source contains no `URL.revokeObjectURL` call, so
`revokedUrls` (and the allocator bookkeeping) is untouched. -/
def handleReset (s : AppState) : AppState :=
  { s with
      selectedFiles := []
      processedFiles := []
      status := ProcessStatus.IDLE
      error := none }

/-- The `onClick={() => setSelectedFiles([])}` of the Clear Selection
button in `renderContent`.  It, too, revokes no object URL. -/
def clickClearSelection (s : AppState) : AppState :=
  { s with selectedFiles := [] }

/-- How the body of a non-ok response behaved under `response.json()`:
either parsing threw (`unparseable`, the `.catch` branch), or it produced
an object whose `detail` field is absent (`parsed none`) or a string. -/
inductive ErrorBody where
  | unparseable
  | parsed (detail : Option String)
deriving DecidableEq, Repr

/-- The outcome of the `fetch` in `handleProcessImages`, as observed by
the surrounding code: the promise rejected (network failure, rejection
value an `Error` with this message), or a response arrived that is non-ok
(its status code and what `response.json()` made of its body), or an ok
response whose body parsed as a `ProcessedImageResponse` array, or an ok
response whose body failed to parse (`response.json()` threw an `Error`
with this message).  `thrownNonError` models a non-`Error` value reaching
the `catch`. -/
inductive FetchOutcome where
  | networkError (msg : String)
  | httpError (statusCode : Nat) (body : ErrorBody)
  | httpOk (results : List ProcessedImageResponse)
  | okBodyMalformed (msg : String)
  | thrownNonError
deriving DecidableEq, Repr

/-- The message of the generic fallback error object installed by the
`.catch` on `response.json()`. -/
def unknownServerError : String :=
  "An unknown error occurred on the server."

/-- The template literal of the non-ok branch. -/
def statusMessage (code : Nat) : String :=
  "Server responded with status: " ++ toString code

/-- The message of the `Error` thrown in the non-ok branch:
`errorData.detail || statusMessage`.  A missing or empty (falsy) `detail`
selects the template; parse failure installs `unknownServerError` as
`detail`, which is non-empty and therefore selected. -/
def errorMessage : ErrorBody → Nat → String
  | ErrorBody.unparseable, _ => unknownServerError
  | ErrorBody.parsed none, code => statusMessage code
  | ErrorBody.parsed (some d), code => if d = "" then statusMessage code else d

/-- The message of the `catch`-all branch for thrown values that are not
`Error` instances. -/
def nonErrorFallback : String :=
  "Failed to process images. Please check the backend server."

/-- The data-URI template literal of the reconciliation step. -/
def dataUri (item : ProcessedImageResponse) : String :=
  "data:" ++ item.content_type ++ ";base64," ++ item.processed_image_b64

/-- `new File([], item.filename)`: an empty placeholder file.  Its
`lastModified` defaults to the current time `now`; none of its fields
beyond name and (empty) content are observed downstream. -/
def placeholderFile (filename : String) (now : Nat) : FsFile :=
  { name := filename, lastModified := now, type := "", content := [] }

/-- One iteration of the `processedData.map` of `handleProcessImages`:
find the first staged entry whose file name equals the result's filename;
if found, keep its id and file; otherwise synthesize
`filename-index` and an empty placeholder file.  Either way the preview
URL is the data URI built from the result. -/
def reconcileOne (staged : List ImageFile) (item : ProcessedImageResponse)
    (index : Nat) (now : Nat) : ImageFile :=
  match staged.find? (fun f => decide (f.file.name = item.filename)) with
  | some originalFile =>
      { id := originalFile.id, file := originalFile.file, previewUrl := dataUri item }
  | none =>
      { id := item.filename ++ "-" ++ toString index
        file := placeholderFile item.filename now
        previewUrl := dataUri item }

/-- The `processedData.map` with its running index, starting at `i`. -/
def reconcileAux (staged : List ImageFile) (now : Nat) :
    List ProcessedImageResponse → Nat → List ImageFile
  | [], _ => []
  | r :: rs, i => reconcileOne staged r i now :: reconcileAux staged now rs (i + 1)

/-- The full reconciliation: one output `ImageFile` per element of the
result array, indices from 0. -/
def reconcile (staged : List ImageFile) (results : List ProcessedImageResponse)
    (now : Nat) : List ImageFile :=
  reconcileAux staged now results 0

/-- The synchronous prefix of `handleProcessImages`: the
`if (!hasFilesSelected) return` guard, then `setStatus(PROCESSING)` and
`setError(null)` before the fetch is issued.  The boolean is whether the
guard was passed, i.e. whether a request is started. -/
def handleProcessImagesStart (s : AppState) : AppState × Bool :=
  if s.selectedFiles.isEmpty then (s, false)
  else ({ s with status := ProcessStatus.PROCESSING, error := none }, true)

/-- The continuation of `handleProcessImages` once the fetch outcome is
known: the try/catch body after the `await fetch`. -/
def handleProcessComplete (s : AppState) (outcome : FetchOutcome) (now : Nat) :
    AppState :=
  match outcome with
  | FetchOutcome.httpOk results =>
      { s with
          processedFiles := reconcile s.selectedFiles results now
          status := ProcessStatus.SUCCESS }
  | FetchOutcome.httpError code body =>
      { s with error := some (errorMessage body code), status := ProcessStatus.ERROR }
  | FetchOutcome.networkError msg =>
      { s with error := some msg, status := ProcessStatus.ERROR }
  | FetchOutcome.okBodyMalformed msg =>
      { s with error := some msg, status := ProcessStatus.ERROR }
  | FetchOutcome.thrownNonError =>
      { s with error := some nonErrorFallback, status := ProcessStatus.ERROR }

/-- `handleProcessImages` end to end, parameterised by the fetch outcome
and the clock value `now` used for placeholder files.  Returns the state
once the invocation has fully settled, and whether a request was
started. -/
def handleProcessImages (s : AppState) (outcome : FetchOutcome) (now : Nat) :
    AppState × Bool :=
  let start := handleProcessImagesStart s
  if start.2 then (handleProcessComplete start.1 outcome now, true) else (s, false)

/-- The `isProcessing` memo: `status === ProcessStatus.PROCESSING`. -/
def isProcessing (s : AppState) : Bool :=
  decide (s.status = ProcessStatus.PROCESSING)

/-- The `hasFilesSelected` memo: `selectedFiles.length > 0`. -/
def hasFilesSelected (s : AppState) : Bool :=
  decide (0 < s.selectedFiles.length)

/-- Whether `renderContent` renders the process button at all: only the
default branch of the status switch (IDLE or ERROR) renders the upload
area, and the button only under `hasFilesSelected &&`. -/
def rendersSubmitButton (s : AppState) : Bool :=
  (match s.status with
   | ProcessStatus.PROCESSING => false
   | ProcessStatus.SUCCESS => false
   | _ => true) && hasFilesSelected s

/-- A user click of the process button: nothing happens unless the button
is rendered and not `disabled={isProcessing}`; otherwise the click runs
`handleProcessImages`. -/
def clickSubmit (s : AppState) (outcome : FetchOutcome) (now : Nat) :
    AppState × Bool :=
  if rendersSubmitButton s && !(isProcessing s) then handleProcessImages s outcome now
  else (s, false)

/-- Whether a fetch outcome takes the `catch` path of
`handleProcessImages` (everything except an ok response with a parseable
body). -/
def isFetchFailure : FetchOutcome → Bool
  | FetchOutcome.httpOk _ => false
  | _ => true

/-- JS `String.prototype.includes`: some position of `s` starts the
substring `pat`. -/
def containsSub (s pat : String) : Bool :=
  (List.range (s.length + 1)).any (fun i => pat.data.isPrefixOf (s.data.drop i))

/-- Concrete fixture: the file of the spec's worked example. -/
def fA : FsFile :=
  { name := "a.png", lastModified := 5, type := "image/png", content := [1] }

/-- A second concrete image file, distinct from `fA`. -/
def fB : FsFile :=
  { name := "b.png", lastModified := 6, type := "image/png", content := [2] }

/-- The staged entry produced for `fA` when it is the first file ever
added (object URL 0). -/
def eA : ImageFile :=
  { id := "a.png-5", file := fA, previewUrl := objectUrl 0 }

/-- The staged entry produced for `fB` when it is the second file ever
added (object URL 1). -/
def eB : ImageFile :=
  { id := "b.png-6", file := fB, previewUrl := objectUrl 1 }

/-- The service result of the spec's worked example. -/
def respA : ProcessedImageResponse :=
  { filename := "a.png", processed_image_b64 := "AA==", content_type := "image/png" }

/-- A second service result, for `fB`. -/
def respB : ProcessedImageResponse :=
  { filename := "b.png", processed_image_b64 := "BB==", content_type := "image/png" }

/-- The state after staging exactly `fA` from the initial state. -/
def stagedA : AppState := handleFiles initialState (some [fA])

/-- `stagedA` with the status forced to PROCESSING: the state during an
in-flight submission. -/
def processingState : AppState :=
  { stagedA with status := ProcessStatus.PROCESSING }

example :
    (handleFiles initialState
        (some [{ name := "a.png", lastModified := 5, type := "image/png",
                 content := [1] }])).selectedFiles.map (fun e => e.id)
      = ["a.png-5"] := by decide

example : stagedA.selectedFiles = [eA] := by decide

example :
    reconcile
      [{ id := "a.png-5",
         file := { name := "a.png", lastModified := 5, type := "image/png",
                   content := [1] },
         previewUrl := "blob:0" }]
      [{ filename := "a.png", processed_image_b64 := "AA==",
         content_type := "image/png" }] 0
      = [{ id := "a.png-5",
           file := { name := "a.png", lastModified := 5, type := "image/png",
                     content := [1] },
           previewUrl := "data:image/png;base64,AA==" }] := by decide

example :
    errorMessage (ErrorBody.parsed (some "model unavailable")) 500
      = "model unavailable" := by decide

example :
    errorMessage ErrorBody.unparseable 500
      = "An unknown error occurred on the server." := by decide

example :
    errorMessage (ErrorBody.parsed none) 503
      = "Server responded with status: 503" := by decide

/-! ### Helper lemmas -/

theorem allocPreviews_map_id (fs : List FsFile) (n : Nat) :
    ((allocPreviews fs n).1.map (fun e => e.id)) = fs.map fileId := by
  induction fs generalizing n with
  | nil => rfl
  | cons f fs ih => simp [allocPreviews, ih]

theorem handleFiles_selectedFiles (s : AppState) (fs : List FsFile) :
    (handleFiles s (some fs)).selectedFiles
      = s.selectedFiles
        ++ ((allocPreviews (fs.filter (fun f => isImageType f)) s.nextUrl).1.filter
              (fun e => !((s.selectedFiles.map (fun e => e.id)).contains e.id))) := by
  rfl

theorem reconcileAux_length (staged : List ImageFile) (now : Nat)
    (rs : List ProcessedImageResponse) (i : Nat) :
    (reconcileAux staged now rs i).length = rs.length := by
  induction rs generalizing i with
  | nil => rfl
  | cons r rs ih => simp [reconcileAux, ih]

theorem reconcileAux_get? (staged : List ImageFile) (now : Nat)
    (rs : List ProcessedImageResponse) (i j : Nat) :
    (reconcileAux staged now rs i).get? j
      = (rs.get? j).map (fun r => reconcileOne staged r (i + j) now) := by
  induction rs generalizing i j with
  | nil => simp [reconcileAux]
  | cons r rs ih =>
      cases j with
      | zero => simp [reconcileAux]
      | succ j =>
          simp only [reconcileAux, List.get?_cons_succ, ih]
          have hidx : i + 1 + j = i + (j + 1) := by omega
          rw [hidx]

theorem reconcile_length (staged : List ImageFile)
    (results : List ProcessedImageResponse) (now : Nat) :
    (reconcile staged results now).length = results.length :=
  reconcileAux_length staged now results 0

theorem reconcile_get? (staged : List ImageFile)
    (results : List ProcessedImageResponse) (now : Nat) (j : Nat) :
    (reconcile staged results now).get? j
      = (results.get? j).map (fun r => reconcileOne staged r j now) := by
  have h := reconcileAux_get? staged now results 0 j
  simpa using h

theorem find?_eq_of_perm {α : Type} (p : α → Bool) {l l2 : List α}
    (hp : l.Perm l2)
    (hu : ∀ x ∈ l, ∀ y ∈ l, p x = true → p y = true → x = y) :
    l.find? p = l2.find? p := by
  cases h1 : l.find? p with
  | none =>
      rw [List.find?_eq_none] at h1
      symm
      rw [List.find?_eq_none]
      intro x hx
      exact h1 x (hp.mem_iff.mpr hx)
  | some a =>
      have hpa : p a = true := List.find?_some h1
      have hma : a ∈ l := List.mem_of_find?_eq_some h1
      cases h2 : l2.find? p with
      | none =>
          rw [List.find?_eq_none] at h2
          exact absurd hpa (h2 a (hp.mem_iff.mp hma))
      | some b =>
          have hpb : p b = true := List.find?_some h2
          have hmb : b ∈ l := hp.mem_iff.mpr (List.mem_of_find?_eq_some h2)
          rw [hu a hma b hmb hpa hpb]

theorem handleFiles_single_new (s : AppState) (f : FsFile)
    (himg : isImageType f = true)
    (hnew : fileId f ∉ s.selectedFiles.map (fun e => e.id)) :
    (handleFiles s (some [f])).selectedFiles
      = s.selectedFiles
        ++ [{ id := fileId f, file := f, previewUrl := objectUrl s.nextUrl }] := by
  rw [handleFiles_selectedFiles]
  have h1 : [f].filter (fun g => isImageType g) = [f] := by simp [himg]
  rw [h1]
  have hc : ((s.selectedFiles.map (fun e => e.id)).contains (fileId f)) = false := by
    simpa using hnew
  simp [allocPreviews, hc]
  intro x hx hx2
  exact hnew (List.mem_map.mpr ⟨x, hx, hx2⟩)

theorem handleFiles_single_dup (s : AppState) (f : FsFile)
    (hdup : fileId f ∈ s.selectedFiles.map (fun e => e.id)) :
    (handleFiles s (some [f])).selectedFiles = s.selectedFiles := by
  rw [handleFiles_selectedFiles]
  cases himg : isImageType f with
  | false =>
      have h1 : [f].filter (fun g => isImageType g) = [] := by simp [himg]
      rw [h1]
      simp [allocPreviews]
  | true =>
      have h1 : [f].filter (fun g => isImageType g) = [f] := by simp [himg]
      rw [h1]
      have hc : ((s.selectedFiles.map (fun e => e.id)).contains (fileId f)) = true := by
        simpa using hdup
      simp [allocPreviews, hc]
      rcases List.mem_map.mp hdup with ⟨e, he, heq⟩
      exact ⟨e, he, heq⟩

/-! ### Claim theorems -/

/-- Claim C10: `handleFiles` has no status guard: in every workflow state
it leaves the status tag, the error message, the result set (and the
presentation state) unchanged, and only appends to the staged set. -/
theorem C10_addFiles_any_state (s : AppState) (files : Option (List FsFile)) :
    (handleFiles s files).status = s.status ∧
    (handleFiles s files).error = s.error ∧
    (handleFiles s files).processedFiles = s.processedFiles ∧
    (handleFiles s files).modalImage = s.modalImage ∧
    (handleFiles s files).isDragging = s.isDragging ∧
    (handleFiles s files).revokedUrls = s.revokedUrls ∧
    ∃ t, (handleFiles s files).selectedFiles = s.selectedFiles ++ t := by
  cases files with
  | none => exact ⟨rfl, rfl, rfl, rfl, rfl, rfl, [], by simp [handleFiles]⟩
  | some fs => exact ⟨rfl, rfl, rfl, rfl, rfl, rfl, _, rfl⟩

/-- Claim C4: `handleReset` (the reset/clear of the workflow) empties the
staged and result sets but releases no preview resource: the source never
calls `URL.revokeObjectURL`, so after staging a file and resetting, the
allocated object URL is still unreleased.  The Clear Selection button
releases nothing either. -/
theorem C4_reset_releases_nothing :
    (∀ s : AppState,
        (handleReset s).selectedFiles = [] ∧
        (handleReset s).processedFiles = [] ∧
        (handleReset s).revokedUrls = s.revokedUrls ∧
        (clickClearSelection s).revokedUrls = s.revokedUrls) ∧
    stagedA.selectedFiles.length = 1 ∧
    stagedA.allocatedUrls = [objectUrl 0] ∧
    (handleReset stagedA).revokedUrls = [] := by
  refine ⟨fun s => ⟨rfl, rfl, rfl, rfl⟩, ?_, ?_, ?_⟩ <;> decide

/-- Claim C2, counterexample: with a non-empty staged set and status
already PROCESSING, a direct invocation of `handleProcessImages` is not a
no-op: it starts a request and (here, on a successful outcome) moves the
status away from PROCESSING and installs a new result set. -/
theorem C2_counterexample :
    (handleProcessImages processingState (FetchOutcome.httpOk []) 0).2 = true ∧
    (handleProcessImages processingState (FetchOutcome.httpOk []) 0).1.status
      = ProcessStatus.SUCCESS := by
  decide

/-- Claim C2, amended: the re-entrancy protection lives in the rendering,
not in the handler.  While the status is PROCESSING the process button is
not rendered (the PROCESSING branch of `renderContent` shows only a
spinner) and is `disabled={isProcessing}` besides, so a submit click
while Processing changes nothing and starts no request. -/
theorem C2_click_guard (s : AppState) (outcome : FetchOutcome) (now : Nat)
    (h : s.status = ProcessStatus.PROCESSING) :
    clickSubmit s outcome now = (s, false) := by
  unfold clickSubmit rendersSubmitButton
  rw [h]
  simp

theorem C2_click_guard_witness :
    clickSubmit processingState (FetchOutcome.httpOk []) 0 = (processingState, false) :=
  C2_click_guard processingState (FetchOutcome.httpOk []) 0 rfl

/-- Claim C3, counterexample: a non-ok response whose body cannot be
parsed produces the fixed message "An unknown error occurred on the
server.", which does not embed the numeric status code (here 500); the
status-code template is reserved for bodies that parse but lack a truthy
`detail`. -/
theorem C3_counterexample :
    (handleProcessImages stagedA
        (FetchOutcome.httpError 500 ErrorBody.unparseable) 0).1.error
      = some unknownServerError ∧
    containsSub unknownServerError (toString 500) = false := by
  constructor
  · decide
  · decide

/-- Claim C3, amended: every non-ok response drives the workflow to ERROR
and never installs result data.  The message is the parsed `detail` field
when it is present and non-empty; the status-code template
"Server responded with status: N" when the body parses without a truthy
`detail`; and the fixed generic message (without the status code) when
the body cannot be parsed. -/
theorem C3_error_handling (s : AppState) (code : Nat) (body : ErrorBody) (now : Nat)
    (hne : s.selectedFiles ≠ []) :
    (handleProcessImages s (FetchOutcome.httpError code body) now).1.status
      = ProcessStatus.ERROR ∧
    (handleProcessImages s (FetchOutcome.httpError code body) now).1.error
      = some (errorMessage body code) ∧
    (handleProcessImages s (FetchOutcome.httpError code body) now).1.processedFiles
      = s.processedFiles ∧
    (body = ErrorBody.unparseable → errorMessage body code = unknownServerError) ∧
    (∀ d, body = ErrorBody.parsed (some d) → d ≠ "" → errorMessage body code = d) ∧
    (body = ErrorBody.parsed none → errorMessage body code = statusMessage code) := by
  have hne2 : s.selectedFiles.isEmpty = false := by
    cases h : s.selectedFiles with
    | nil => exact absurd h hne
    | cons a l => rfl
  refine ⟨?_, ?_, ?_, ?_, ?_, ?_⟩
  · simp [handleProcessImages, handleProcessImagesStart, handleProcessComplete, hne2]
  · simp [handleProcessImages, handleProcessImagesStart, handleProcessComplete, hne2]
  · simp [handleProcessImages, handleProcessImagesStart, handleProcessComplete, hne2]
  · intro hb; rw [hb]; rfl
  · intro d hb hd; rw [hb]; simp [errorMessage, hd]
  · intro hb; rw [hb]; rfl

theorem C3_error_handling_witness :
    (handleProcessImages stagedA
        (FetchOutcome.httpError 500 (ErrorBody.parsed (some "model unavailable"))) 0).1.status
      = ProcessStatus.ERROR ∧
    (handleProcessImages stagedA
        (FetchOutcome.httpError 500 (ErrorBody.parsed (some "model unavailable"))) 0).1.error
      = some "model unavailable" := by
  have h := C3_error_handling stagedA 500 (ErrorBody.parsed (some "model unavailable")) 0
    (by decide)
  refine ⟨h.1, ?_⟩
  rw [h.2.1]
  decide

/-- Claim C9: once the empty-staging guard is passed, `handleProcessImages`
never touches the staged set (or the presentation and resource fields),
and on every failing outcome it leaves the previous result set in place,
changing only the status (to ERROR) and the error message. -/
theorem C9_frame (s : AppState) (outcome : FetchOutcome) (now : Nat)
    (hne : s.selectedFiles ≠ []) :
    (handleProcessImages s outcome now).1.selectedFiles = s.selectedFiles ∧
    (handleProcessImages s outcome now).1.isDragging = s.isDragging ∧
    (handleProcessImages s outcome now).1.modalImage = s.modalImage ∧
    (handleProcessImages s outcome now).1.nextUrl = s.nextUrl ∧
    (handleProcessImages s outcome now).1.allocatedUrls = s.allocatedUrls ∧
    (handleProcessImages s outcome now).1.revokedUrls = s.revokedUrls ∧
    (isFetchFailure outcome = true →
      (handleProcessImages s outcome now).1.processedFiles = s.processedFiles ∧
      (handleProcessImages s outcome now).1.status = ProcessStatus.ERROR) := by
  have hne2 : s.selectedFiles.isEmpty = false := by
    cases h : s.selectedFiles with
    | nil => exact absurd h hne
    | cons a l => rfl
  cases outcome <;>
    simp [handleProcessImages, handleProcessImagesStart, handleProcessComplete,
      hne2, isFetchFailure]

theorem C9_frame_witness :
    (handleProcessImages stagedA (FetchOutcome.networkError "Failed to fetch") 0).1.selectedFiles
      = stagedA.selectedFiles ∧
    (handleProcessImages stagedA (FetchOutcome.networkError "Failed to fetch") 0).1.processedFiles
      = stagedA.processedFiles := by
  have h := C9_frame stagedA (FetchOutcome.networkError "Failed to fetch") 0 (by decide)
  exact ⟨h.1, (h.2.2.2.2.2.2 rfl).1⟩

/-- Claim C5: an ok response with a well-formed result array moves the
workflow to SUCCESS (with no error message), installs one `ImageFile` per
result, and every result whose filename matches a staged entry (first
match of the linear scan) yields the entry built from that staged entry's
id and file together with the `data:{content_type};base64,{b64}` URI. -/
theorem C5_success_reconciliation (s : AppState)
    (results : List ProcessedImageResponse) (now : Nat)
    (hne : s.selectedFiles ≠ []) :
    (handleProcessImages s (FetchOutcome.httpOk results) now).2 = true ∧
    (handleProcessImages s (FetchOutcome.httpOk results) now).1.status
      = ProcessStatus.SUCCESS ∧
    (handleProcessImages s (FetchOutcome.httpOk results) now).1.error = none ∧
    (handleProcessImages s (FetchOutcome.httpOk results) now).1.processedFiles.length
      = results.length ∧
    ∀ (i : Nat) (r : ProcessedImageResponse) (orig : ImageFile),
      results.get? i = some r →
      s.selectedFiles.find? (fun f => decide (f.file.name = r.filename)) = some orig →
      (handleProcessImages s (FetchOutcome.httpOk results) now).1.processedFiles.get? i
        = some { id := orig.id, file := orig.file, previewUrl := dataUri r } := by
  have hne2 : s.selectedFiles.isEmpty = false := by
    cases h : s.selectedFiles with
    | nil => exact absurd h hne
    | cons a l => rfl
  have hpf : (handleProcessImages s (FetchOutcome.httpOk results) now).1.processedFiles
      = reconcile s.selectedFiles results now := by
    simp [handleProcessImages, handleProcessImagesStart, handleProcessComplete, hne2]
  refine ⟨?_, ?_, ?_, ?_, ?_⟩
  · simp [handleProcessImages, handleProcessImagesStart, hne2]
  · simp [handleProcessImages, handleProcessImagesStart, handleProcessComplete, hne2]
  · simp [handleProcessImages, handleProcessImagesStart, handleProcessComplete, hne2]
  · rw [hpf, reconcile_length]
  · intro i r orig hget hfind
    rw [hpf, reconcile_get?, hget]
    simp [reconcileOne, hfind]

theorem C5_success_reconciliation_witness :
    (handleProcessImages stagedA (FetchOutcome.httpOk [respA]) 0).1.status
      = ProcessStatus.SUCCESS ∧
    (handleProcessImages stagedA (FetchOutcome.httpOk [respA]) 0).1.processedFiles.get? 0
      = some { id := "a.png-5", file := fA,
               previewUrl := "data:image/png;base64,AA==" } := by
  have h := C5_success_reconciliation stagedA [respA] 0 (by decide)
  refine ⟨h.2.1, ?_⟩
  have h2 := h.2.2.2.2 0 respA eA rfl (by decide)
  rw [h2]
  decide

/-- Claim C6: reconciliation is total and length-preserving: one output
entry per result, and a result whose filename matches no staged entry
yields the fallback entry whose id is the filename joined to the ordinal
index (template `filename-index`) with an empty placeholder file. -/
theorem C6_reconcile_total (staged : List ImageFile)
    (results : List ProcessedImageResponse) (now : Nat) :
    (reconcile staged results now).length = results.length ∧
    ∀ (i : Nat) (r : ProcessedImageResponse),
      results.get? i = some r →
      staged.find? (fun f => decide (f.file.name = r.filename)) = none →
      (reconcile staged results now).get? i
        = some { id := r.filename ++ "-" ++ toString i
                 file := placeholderFile r.filename now
                 previewUrl := dataUri r } := by
  refine ⟨reconcile_length staged results now, ?_⟩
  intro i r hget hfind
  rw [reconcile_get?, hget]
  simp [reconcileOne, hfind, placeholderFile]

theorem C6_reconcile_total_witness :
    (reconcile [] [respA] 7).length = 1 ∧
    (reconcile [] [respA] 7).get? 0
      = some { id := "a.png-0", file := placeholderFile "a.png" 7,
               previewUrl := "data:image/png;base64,AA==" } := by
  have h := C6_reconcile_total [] [respA] 7
  refine ⟨h.1, ?_⟩
  have h2 := h.2 0 respA rfl rfl
  rw [h2]
  decide

/-- Claim C7: when the staged display names are pairwise distinct,
reconciliation does not depend on the order of the staged list, and the
i-th output entry is always the one built from the i-th result. -/
theorem C7_reconcile_perm_invariant (staged staged2 : List ImageFile)
    (results : List ProcessedImageResponse) (now : Nat)
    (hperm : staged.Perm staged2)
    (hnames : (staged.map (fun f => f.file.name)).Nodup) :
    reconcile staged results now = reconcile staged2 results now ∧
    ∀ (i : Nat) (r : ProcessedImageResponse),
      results.get? i = some r →
      (reconcile staged results now).get? i = some (reconcileOne staged r i now) := by
  have hone : ∀ (r : ProcessedImageResponse) (i : Nat),
      reconcileOne staged r i now = reconcileOne staged2 r i now := by
    intro r i
    unfold reconcileOne
    have hfind : staged.find? (fun f => decide (f.file.name = r.filename))
        = staged2.find? (fun f => decide (f.file.name = r.filename)) := by
      apply find?_eq_of_perm _ hperm
      intro x hx y hy hpx hpy
      have hx2 : x.file.name = r.filename := of_decide_eq_true hpx
      have hy2 : y.file.name = r.filename := of_decide_eq_true hpy
      exact List.inj_on_of_nodup_map hnames hx hy (hx2.trans hy2.symm)
    rw [hfind]
  have haux : ∀ (rs : List ProcessedImageResponse) (i : Nat),
      reconcileAux staged now rs i = reconcileAux staged2 now rs i := by
    intro rs
    induction rs with
    | nil => intro i; rfl
    | cons r rs ih =>
        intro i
        show reconcileOne staged r i now :: reconcileAux staged now rs (i + 1)
          = reconcileOne staged2 r i now :: reconcileAux staged2 now rs (i + 1)
        rw [hone r i, ih (i + 1)]
  refine ⟨haux results 0, ?_⟩
  intro i r hget
  rw [reconcile_get?, hget]
  rfl

theorem C7_reconcile_perm_invariant_witness :
    reconcile [eA, eB] [respB, respA] 0 = reconcile [eB, eA] [respB, respA] 0 ∧
    reconcile [eA, eB] [respB, respA] 0
      = [{ id := "b.png-6", file := fB, previewUrl := "data:image/png;base64,BB==" },
         { id := "a.png-5", file := fA, previewUrl := "data:image/png;base64,AA==" }] := by
  have h := C7_reconcile_perm_invariant [eA, eB] [eB, eA] [respB, respA] 0
    (List.Perm.swap eB eA []) (by decide)
  exact ⟨h.1, by decide⟩

/-- Claim C1, counterexample: deduplication in `handleFiles` only checks
the ids already in the store (`existingIds` is built from `prev` and not
updated within the batch), so a single add call whose input holds two
files with the same name and lastModified stages both: the store then
holds two entries with the same id. -/
theorem C1_counterexample :
    ((handleFiles initialState (some [fA, fA])).selectedFiles.map (fun e => e.id))
      = [fileId fA, fileId fA] ∧
    ¬ (((handleFiles initialState (some [fA, fA])).selectedFiles.map
        (fun e => e.id)).Nodup) := by
  constructor
  · decide
  · decide

/-- Claim C1, amended: the no-duplicate-id invariant is preserved by
`handleFiles` provided the call's own input batch has pairwise-distinct
ids among its image files; candidates colliding with an already staged id
are dropped, but two same-id files inside one batch are both staged. -/
theorem C1_nodup_ids (s : AppState) (fs : List FsFile)
    (hs : (s.selectedFiles.map (fun e => e.id)).Nodup)
    (hb : ((fs.filter (fun f => isImageType f)).map fileId).Nodup) :
    ((handleFiles s (some fs)).selectedFiles.map (fun e => e.id)).Nodup := by
  rw [handleFiles_selectedFiles, List.map_append, List.nodup_append]
  have hA : ((allocPreviews (fs.filter (fun f => isImageType f)) s.nextUrl).1.map
      (fun e => e.id)).Nodup := by
    rw [allocPreviews_map_id]
    exact hb
  refine ⟨hs, ?_, ?_⟩
  · exact List.Nodup.sublist (List.Sublist.map _ (List.filter_sublist _)) hA
  · intro a ha1 ha2
    rcases List.mem_map.mp ha2 with ⟨e, he, rfl⟩
    rcases List.mem_filter.mp he with ⟨heA, hcond⟩
    have hnm : e.id ∉ s.selectedFiles.map (fun e => e.id) := by
      simpa using hcond
    exact hnm ha1

theorem C1_nodup_ids_witness :
    (((handleFiles initialState (some [fA, fB])).selectedFiles.map
        (fun e => e.id)).Nodup) :=
  C1_nodup_ids initialState [fA, fB] (by decide) (by decide)

/-- Claim C8: re-adding a file whose id is already staged is dropped
(first-seen wins): a second add call with the same file leaves the staged
list unchanged, still holding exactly one entry with that id. -/
theorem C8_first_seen_wins (s0 : AppState) (f : FsFile)
    (himg : isImageType f = true)
    (hnew : fileId f ∉ s0.selectedFiles.map (fun e => e.id)) :
    (handleFiles (handleFiles s0 (some [f])) (some [f])).selectedFiles
      = (handleFiles s0 (some [f])).selectedFiles ∧
    ((handleFiles s0 (some [f])).selectedFiles.filter
        (fun e => decide (e.id = fileId f))).length = 1 := by
  have h1 := handleFiles_single_new s0 f himg hnew
  constructor
  · apply handleFiles_single_dup
    rw [h1, List.map_append]
    simp
  · rw [h1, List.filter_append]
    have hz : s0.selectedFiles.filter (fun e => decide (e.id = fileId f)) = [] := by
      rw [List.filter_eq_nil_iff]
      intro e he hp
      have he2 : e.id = fileId f := of_decide_eq_true hp
      exact hnew (List.mem_map.mpr ⟨e, he, he2⟩)
    rw [hz]
    simp

theorem C8_first_seen_wins_witness :
    (handleFiles (handleFiles initialState (some [fA])) (some [fA])).selectedFiles
      = (handleFiles initialState (some [fA])).selectedFiles ∧
    ((handleFiles initialState (some [fA])).selectedFiles.filter
        (fun e => decide (e.id = fileId fA))).length = 1 :=
  C8_first_seen_wins initialState fA (by decide) (by decide)
